import Mathlib

/-!
Verification of the Godot asset-library scraper (`asset_library.py`).

The development shallowly embeds the scraper: HTML documents are records of
the fields the scraper's CSS selectors can return, the HTTP layer is a
function from URLs to optional documents, Python string operations are
re-implemented on `List Char`, and Python exceptions that escape a function
are an `Except` error.
-/

/-! ## Python string primitives on `List Char` -/

/-- Lexicographic strict order on char lists by Unicode code point, as Python
compares `str` values: the first differing position decides, and a proper
prefix is smaller than the longer list. -/
def pyLt : List Char → List Char → Bool
  | _, [] => false
  | [], _ :: _ => true
  | a :: as, b :: bs =>
      if a.toNat < b.toNat then true
      else if b.toNat < a.toNat then false
      else pyLt as bs

/-- Python `a > b` on strings: `b` is lexicographically smaller than `a`. -/
def strGt (a b : String) : Bool := pyLt b.data a.data

/-- Does `pat` occur at the start of `s`? (helper for substring search). -/
def startsWithL : List Char → List Char → Bool
  | [], _ => true
  | _ :: _, [] => false
  | p :: ps, c :: cs => p = c && startsWithL ps cs

/-- Does `pat` occur anywhere in `s`? (Python's `pat in s`). -/
def containsL (pat : List Char) : List Char → Bool
  | [] => startsWithL pat []
  | c :: cs => startsWithL pat (c :: cs) || containsL pat cs

/-- Python's substring test `pat in s` on strings. -/
def strContains (s pat : String) : Bool := containsL pat.data s.data

/-- Python `s.replace(pat, rep)` for a single-character pattern: every
occurrence of the character is replaced by `rep`. -/
def replaceChar (pat : Char) (rep : List Char) : List Char → List Char
  | [] => []
  | c :: cs => (if c = pat then rep else [c]) ++ replaceChar pat rep cs

/-- Python `s.split(sep, maxsplit)` for a one-character separator: at most
`maxsplit` splits are performed, the remainder is kept whole. -/
def pySplit (sep : Char) (maxsplit : Nat) (cs : List Char) : List (List Char) :=
  match maxsplit, cs with
  | _, [] => [[]]
  | 0, cs => [cs]
  | n + 1, c :: rest =>
      if c = sep then [] :: pySplit sep n rest
      else
        match pySplit sep (n + 1) rest with
        | [] => [[c]]
        | g :: gs => (c :: g) :: gs

/-- Python `sep.join(groups)` for a one-character separator. -/
def pyJoin (sep : Char) : List (List Char) → List Char
  | [] => []
  | [g] => g
  | g :: g' :: gs => g ++ sep :: pyJoin sep (g' :: gs)

/-- Is `c` one of the ASCII whitespace characters stripped by Python's
`str.strip()` (space, tab, newline, carriage return, vertical tab, form
feed)? -/
def isPySpace (c : Char) : Bool :=
  c = ' ' || c = '\t' || c = '\n' || c = '\r' || c.toNat = 11 || c.toNat = 12

/-- Python `s.strip()`: drop leading and trailing whitespace. -/
def pyStrip (s : String) : String :=
  ⟨((s.data.dropWhile isPySpace).reverse.dropWhile isPySpace).reverse⟩

/-- Python `s.split(sep)` (equivalently `s.rsplit(sep)`) with no maxsplit,
for a one-character separator. -/
def pySplitAll (sep : Char) : List Char → List (List Char)
  | [] => [[]]
  | c :: cs =>
    match pySplitAll sep cs with
    | [] => [[]]
    | g :: gs => if c = sep then [] :: g :: gs else (c :: g) :: gs

/-- Parse a string of decimal digits into a number (the integer case of the
export step's `to_numeric` collaborator). -/
def parseNat? (s : String) : Option Nat :=
  if s.data ≠ [] ∧ s.data.all Char.isDigit then
    some (s.data.foldl (fun a c => a * 10 + (c.toNat - 48)) 0)
  else none

/-! ## Data model (`AssetInfo`, documents, fetch environment) -/

/-- One scraped asset record (`AssetInfo` dataclass in the source). -/
structure AssetInfo where
  name : String
  asset_url : String
  repo_url : String
  stars : String
  godot_version : String
  last_updated : String
deriving DecidableEq, Repr

/-- One `.asset-item` listing fragment, reduced to the values its selectors
can yield. A field is `none` when the selector finds no element (or, for
`headerHref`, when the element lacks the attribute) — either way the Python
access raises. -/
structure Item where
  headerHref : Option String
  titleText : Option String
  tagText : Option String
  footerText : Option String
deriving DecidableEq, Repr

/-- A parsed document, reduced to the selector results the scraper reads:
`btnHref` is `.container a.btn-default` (with its `href`), `socialCount` is
the `.js-social-count` element (outer `Option`: element present?; inner:
its `title` attribute), `starCount` is `.star-count`'s text, and `items`
are the `.asset-item` fragments of a listing page. -/
structure Soup where
  btnHref : Option String := none
  socialCount : Option (Option String) := none
  starCount : Option String := none
  items : List Item := []
deriving DecidableEq, Repr

/-- The network: `_make_request` as a pure map from URL to optional parsed
document (`none` models a `RequestException`, logged and swallowed). -/
structure Env where
  fetch : String → Option Soup

def BASE_URL : String := "https://godotengine.org"

/-! ## Site extraction (`_parse_stars`, `_clean_repo_url`) -/

/-- Embeds `_parse_stars`. The github branch reads the social-count
element's `title` attribute with default `""` and strips commas; a missing
element raises (`Except.error`), which the caller must catch. The gitlab
branch reads the star-count text trimmed; a missing element raises.
Any other host yields the literal `"0"`. -/
def parse_stars (soup : Soup) (repo_url : String) : Except Unit String :=
  if strContains repo_url "github" then
    match soup.socialCount with
    | none => .error ()
    | some title? => .ok ⟨replaceChar ',' [] (title?.getD "").data⟩
  else if strContains repo_url "gitlab" then
    match soup.starCount with
    | none => .error ()
    | some t => .ok (pyStrip t)
  else .ok "0"

/-- Embeds `_clean_repo_url`: when the URL contains `"github"`, rebuild it
from the first five `'/'`-separated pieces of `repo_url.split('/', 5)`
(i.e. `'/'.join(repo_url.split('/', 5)[:5])`); otherwise return it as is. -/
def clean_repo_url (repo_url : String) : String :=
  if strContains repo_url "github" then
    ⟨pyJoin '/' ((pySplit '/' 5 repo_url.data).take 5)⟩
  else repo_url

/-- Last `'|'`-separated segment, trimmed: `.text.rsplit('|')[-1].strip()`. -/
def lastSegTrim (s : String) : String :=
  pyStrip ⟨(pySplitAll '|' s.data).getLastD []⟩

/-! ## Asset extraction (`scrape_asset`) -/

/-- Embeds `scrape_asset`. The result is `.error ()` when an exception
escapes the method, and otherwise `.ok (record?, failedAdds)` where
`record?` is the returned record (if any) and `failedAdds` lists the URLs
added to `failed_urls` during the call.

Paths, following the source:
* missing `.asset-header` (or missing `href`): the selector access raises,
  the `except` block catches it, but its `self.failed_urls.add(asset_url)`
  then raises `UnboundLocalError` — `asset_url` was never assigned — and
  that exception escapes the method: `.error ()`;
* detail-page fetch failure: `return None` with no failure-set add;
* missing repository button, a raising `_parse_stars`, or a missing
  name/tag/footer element: caught by the `except` block, `asset_url` (now
  bound) is added to `failed_urls`, `None` is returned;
* otherwise a full record is built. -/
def scrape_asset (env : Env) (item : Item) : Except Unit (Option AssetInfo × List String) :=
  match item.headerHref with
  | none => .error ()
  | some href =>
      let asset_url := BASE_URL ++ href
      match env.fetch asset_url with
      | none => .ok (none, [])
      | some asset_soup =>
          match asset_soup.btnHref with
          | none => .ok (none, [asset_url])
          | some raw =>
              let repo_url := clean_repo_url raw
              let stars? : Except Unit String :=
                match env.fetch repo_url with
                | none => .ok "0"
                | some repo_soup => parse_stars repo_soup repo_url
              match stars? with
              | .error _ => .ok (none, [asset_url])
              | .ok stars =>
                  match item.titleText, item.tagText, item.footerText with
                  | some name, some tag, some footer =>
                      .ok (some { name := pyStrip name, asset_url := asset_url,
                                  repo_url := repo_url, stars := stars,
                                  godot_version := pyStrip tag,
                                  last_updated := lastSegTrim footer }, [])
                  | none, _, _ => .ok (none, [asset_url])
                  | some _, none, _ => .ok (none, [asset_url])
                  | some _, some _, none => .ok (none, [asset_url])

/-! ## Crawl controller (`scrape_all`) -/

/-- Lookup in the controller's `asset_dict`, modelled as an association
list keyed by `asset_url` (Python `dict.get`). -/
def dictGet (m : List (String × AssetInfo)) (k : String) : Option AssetInfo :=
  match m with
  | [] => none
  | (k', v) :: rest => if k' = k then some v else dictGet rest k

/-- Python `dict` assignment `m[k] = v`: replace in place or append. -/
def dictSet (m : List (String × AssetInfo)) (k : String) (v : AssetInfo) :
    List (String × AssetInfo) :=
  match m with
  | [] => [(k, v)]
  | (k', v') :: rest =>
      if k' = k then (k', v) :: rest else (k', v') :: dictSet rest k v

/-- Python `set.add` on the failure set, modelled as a duplicate-free list. -/
def setAdd (s : List String) (x : String) : List String :=
  if x ∈ s then s else s ++ [x]

/-- The dedup/merge step of `scrape_all` (source lines 100-103): keep the
stored record when its `godot_version` is strictly greater (Python string
`>`), otherwise store the new record. -/
def mergeRecord (m : List (String × AssetInfo)) (a : AssetInfo) :
    List (String × AssetInfo) :=
  match dictGet m a.asset_url with
  | some prev =>
      if strGt prev.godot_version a.godot_version then m
      else dictSet m a.asset_url a
  | none => dictSet m a.asset_url a

/-- The controller's mutable state: `asset_dict` and `failed_urls`. -/
structure ScrapeState where
  asset_dict : List (String × AssetInfo)
  failed_urls : List String
deriving DecidableEq, Repr

/-- One iteration of the inner loop of `scrape_all`: run `scrape_asset` on
an item; an escaping exception aborts the run, otherwise record the
failure-set additions and merge a returned record into `asset_dict`. -/
def processItem (env : Env) (st : ScrapeState) (item : Item) :
    Except Unit ScrapeState :=
  match scrape_asset env item with
  | .error e => .error e
  | .ok (rec?, adds) =>
      .ok { asset_dict :=
              match rec? with
              | some r => mergeRecord st.asset_dict r
              | none => st.asset_dict,
            failed_urls := adds.foldl setAdd st.failed_urls }

/-- Items of one listing page, processed in order. -/
def processItems (env : Env) (st : ScrapeState) :
    List Item → Except Unit ScrapeState
  | [] => .ok st
  | item :: rest =>
      match processItem env st item with
      | .error e => .error e
      | .ok st' => processItems env st' rest

/-- Listing-page URL for a page index (source line 92). -/
def page_url (page : Nat) : String :=
  BASE_URL ++ "/asset-library/asset?max_results=100&page=" ++ toString page ++
    "&sort=updated"

/-- One iteration of the outer loop of `scrape_all`: a failed listing fetch
skips the page, otherwise its `.asset-item` fragments are processed. -/
def scrape_page (env : Env) (st : ScrapeState) (page : Nat) :
    Except Unit ScrapeState :=
  match env.fetch (page_url page) with
  | none => .ok st
  | some soup => processItems env st soup.items

/-- The page loop over a list of page indices. -/
def scrape_pages (env : Env) : ScrapeState → List Nat → Except Unit ScrapeState
  | st, [] => .ok st
  | st, p :: rest =>
      match scrape_page env st p with
      | .error e => .error e
      | .ok st' => scrape_pages env st' rest

/-- Embeds `scrape_all(max_pages)`: pages `0 .. max_pages - 1` starting
from the empty state. -/
def scrape_all (env : Env) (max_pages : Nat) : Except Unit ScrapeState :=
  scrape_pages env ⟨[], []⟩ (List.range max_pages)

/-- The `.asset-item` fragments the run sees on one page (empty when the
listing fetch fails). -/
def pageItems (env : Env) (page : Nat) : List Item :=
  match env.fetch (page_url page) with
  | none => []
  | some soup => soup.items

/-- The record an item contributes, if its extraction succeeds. -/
def itemRecord? (env : Env) (item : Item) : Option AssetInfo :=
  match scrape_asset env item with
  | .ok (some r, _) => some r
  | _ => none

/-- All records successfully extracted over a list of pages, in run order. -/
def runRecords (env : Env) (pages : List Nat) : List AssetInfo :=
  ((pages.map (pageItems env)).flatten).filterMap (itemRecord? env)

/-- The `godot_version` tags of the records produced for one asset URL. -/
def tagsFor (u : String) (rs : List AssetInfo) : List String :=
  (rs.filter (fun r => r.asset_url = u)).map AssetInfo.godot_version

/-! ## Export-time popularity normalization (`save_results`) -/

/-- The transform of source lines 112-114:
`x.replace(".", "").replace("k", "00")` — every period is removed and every
`k` becomes `00`. -/
def strip_stars (x : String) : String :=
  ⟨replaceChar 'k' ['0', '0'] (replaceChar '.' [] x.data)⟩

/-- Modelled from the spec: the Result Writer's normalization as §4.5 words
it — "strip internal period characters, then replace a trailing literal
`k` with two zero digits" — stated for comparison with `strip_stars`. -/
def spec_normalize (x : String) : String :=
  let y := replaceChar '.' [] x.data
  if y.getLast? = some 'k' then ⟨y.dropLast ++ ['0', '0']⟩ else ⟨y⟩


instance {ε α : Type} [DecidableEq ε] [DecidableEq α] :
    DecidableEq (Except ε α) := fun a b =>
  match a, b with
  | .error e, .error f =>
      if h : e = f then isTrue (by rw [h])
      else isFalse (fun hh => by cases hh; exact h rfl)
  | .error _, .ok _ => isFalse (fun hh => by cases hh)
  | .ok _, .error _ => isFalse (fun hh => by cases hh)
  | .ok x, .ok y =>
      if h : x = y then isTrue (by rw [h])
      else isFalse (fun hh => by cases hh; exact h rfl)

/-! ## Concrete run used by the witnesses -/

/-- Detail-page URL of the witness asset. -/
def wUrl : String := "https://godotengine.org/asset/1"

/-- Listing fragment whose record carries tag `"4.10"`. -/
def wItem1 : Item := ⟨some "/asset/1", some "A", some "4.10", some "d1"⟩

/-- Listing fragment whose record carries tag `"4.2"`. -/
def wItem2 : Item := ⟨some "/asset/1", some "A", some "4.2", some "d2"⟩

/-- Detail page: repository button pointing at an unrecognized host. -/
def wAssetDoc : Soup := { btnHref := some "https://example.org/x" }

/-- Listing page with the two witness fragments. -/
def wListDoc : Soup := { items := [wItem1, wItem2] }

/-- Concrete network: page 0 lists the two fragments, the detail page
resolves, the repository fetch fails. -/
def wEnv : Env :=
  ⟨fun url =>
    if url = page_url 0 then some wListDoc
    else if url = wUrl then some wAssetDoc
    else none⟩

/-- The record extracted from `wItem2` (tag `"4.2"`). -/
def wRec2 : AssetInfo :=
  { name := "A", asset_url := wUrl, repo_url := "https://example.org/x",
    stars := "0", godot_version := "4.2", last_updated := "d2" }

/-- Listing fragment with a missing `.asset-header` element. -/
def badItem : Item := ⟨none, some "A", some "4.2", some "d"⟩

/-- Network for the crash scenario: page 0 lists only `badItem`. -/
def eEnv : Env :=
  ⟨fun url => if url = page_url 0 then some { items := [badItem] } else none⟩

/-- Environment in which every fetch fails. -/
def nEnv : Env := ⟨fun _ => none⟩

/-- The witness record re-submitted with an equal tag but fresher data. -/
def wRec2x : AssetInfo := { wRec2 with last_updated := "d9" }

/-! ## Order lemmas for the lexicographic comparison -/

theorem pyLt_cons_iff (x y : Char) (xs ys : List Char) :
    pyLt (x :: xs) (y :: ys) = true ↔
      x.toNat < y.toNat ∨ (x.toNat = y.toNat ∧ pyLt xs ys = true) := by
  simp only [pyLt]
  by_cases h1 : x.toNat < y.toNat
  · simp [h1]
  · by_cases h2 : y.toNat < x.toNat
    · have hne : ¬x.toNat = y.toNat := by omega
      simp [h1, h2, hne]
    · have heq : x.toNat = y.toNat := by omega
      simp [h1, h2, heq]

theorem pyLt_irrefl (cs : List Char) : pyLt cs cs = false := by
  induction cs with
  | nil => rfl
  | cons c cs ih => simp [pyLt, ih]

theorem pyLt_trans (a : List Char) : ∀ b c, pyLt a b = true → pyLt b c = true →
    pyLt a c = true := by
  induction a with
  | nil =>
    intro b c h1 h2
    match b, c with
    | [], _ => exact absurd h1 (by simp [pyLt])
    | _ :: _, [] => exact absurd h2 (by simp [pyLt])
    | _ :: _, _ :: _ => simp [pyLt]
  | cons x xs ih =>
    intro b c h1 h2
    match b, c with
    | [], _ => exact absurd h1 (by simp [pyLt])
    | _ :: _, [] => exact absurd h2 (by simp [pyLt])
    | y :: ys, z :: zs =>
      rw [pyLt_cons_iff] at h1 h2 ⊢
      rcases h1 with h1 | ⟨h1e, h1r⟩
      · rcases h2 with h2 | ⟨h2e, h2r⟩
        · exact Or.inl (by omega)
        · exact Or.inl (by omega)
      · rcases h2 with h2 | ⟨h2e, h2r⟩
        · exact Or.inl (by omega)
        · exact Or.inr ⟨by omega, ih ys zs h1r h2r⟩

theorem pyLt_connex (a : List Char) : ∀ b, pyLt a b = false → pyLt b a = false →
    a = b := by
  induction a with
  | nil =>
    intro b h1 h2
    match b with
    | [] => rfl
    | _ :: _ => exact absurd h1 (by simp [pyLt])
  | cons x xs ih =>
    intro b h1 h2
    match b with
    | [] => exact absurd h2 (by simp [pyLt])
    | y :: ys =>
      rw [← Bool.not_eq_true, pyLt_cons_iff] at h1 h2
      push_neg at h1 h2
      obtain ⟨h1a, h1b⟩ := h1
      obtain ⟨h2a, h2b⟩ := h2
      have hxy : x.toNat = y.toNat := by omega
      have hxs : pyLt xs ys = false :=
        Bool.not_eq_true _ ▸ (h1b hxy)
      have hys : pyLt ys xs = false :=
        Bool.not_eq_true _ ▸ (h2b hxy.symm)
      have hc : x = y := by
        rw [← Char.ofNat_toNat x, ← Char.ofNat_toNat y, hxy]
      rw [hc, ih ys hxs hys]

theorem strGt_irrefl (v : String) : strGt v v = false := pyLt_irrefl _

/-- Transitivity of "not less than" at the char-list level. -/
theorem pyLt_le_trans (x y z : List Char) (h1 : pyLt y x = false)
    (h2 : pyLt z y = false) : pyLt z x = false := by
  cases hzx : pyLt z x with
  | false => rfl
  | true =>
    cases hyz : pyLt y z with
    | true =>
      have hyx : pyLt y x = true := pyLt_trans y z x hyz hzx
      rw [hyx] at h1
      exact absurd h1 (by simp)
    | false =>
      have heq : y = z := pyLt_connex y z hyz h2
      rw [heq, hzx] at h1
      exact absurd h1 (by simp)

/-- Transitivity of "not greater": if `b` is not greater than `a`'s bound
and `c` is not greater than `b`, then `c` is not greater than `a`. -/
theorem strGt_le_trans {a b c : String} (h1 : strGt b a = false)
    (h2 : strGt c b = false) : strGt c a = false :=
  pyLt_le_trans c.data b.data a.data h2 h1

/-- If the previous record was strictly greater than `a` and not greater
than the final record, the final record is not smaller than `a` either. -/
theorem strGt_lt_le {a b c : String} (h1 : strGt b a = true)
    (h2 : strGt b c = false) : strGt a c = false := by
  unfold strGt at h1 h2 ⊢
  cases hca : pyLt c.data a.data with
  | false => rfl
  | true =>
    have : pyLt c.data b.data = true := pyLt_trans _ _ _ hca h1
    rw [this] at h2
    exact absurd h2 (by simp)

/-! ## Dictionary and merge lemmas -/

theorem dictGet_dictSet_self (m : List (String × AssetInfo)) (k : String)
    (v : AssetInfo) : dictGet (dictSet m k v) k = some v := by
  induction m with
  | nil => simp [dictGet, dictSet]
  | cons p rest ih =>
    obtain ⟨k', v'⟩ := p
    by_cases h : k' = k
    · simp [dictGet, dictSet, h]
    · simp [dictGet, dictSet, h, ih]

theorem dictGet_dictSet_ne (m : List (String × AssetInfo)) (k u : String)
    (v : AssetInfo) (h : k ≠ u) : dictGet (dictSet m k v) u = dictGet m u := by
  induction m with
  | nil => simp [dictGet, dictSet, h]
  | cons p rest ih =>
    obtain ⟨k', v'⟩ := p
    by_cases h1 : k' = k
    · subst h1
      simp [dictGet, dictSet, h]
    · by_cases h2 : k' = u
      · subst h2
        simp [dictGet, dictSet, h1]
      · simp [dictGet, dictSet, h1, h2, ih]

theorem mergeRecord_get_other (m : List (String × AssetInfo)) (a : AssetInfo)
    (u : String) (h : a.asset_url ≠ u) :
    dictGet (mergeRecord m a) u = dictGet m u := by
  unfold mergeRecord
  cases hg : dictGet m a.asset_url with
  | none => exact dictGet_dictSet_ne m a.asset_url u a h
  | some prev =>
    by_cases hk : strGt prev.godot_version a.godot_version = true
    · simp [hk]
    · simp only [Bool.not_eq_true] at hk
      simp [hk]
      exact dictGet_dictSet_ne m a.asset_url u a h

theorem tagsFor_nil (u : String) : tagsFor u [] = [] := rfl

theorem tagsFor_cons (u : String) (a : AssetInfo) (rs : List AssetInfo) :
    tagsFor u (a :: rs) =
      if a.asset_url = u then a.godot_version :: tagsFor u rs
      else tagsFor u rs := by
  by_cases h : a.asset_url = u <;> simp [tagsFor, List.filter_cons, h]

/-- Invariant of the merge fold: once the map holds a record for `u`, it
keeps holding one, its tag only grows (never becomes smaller), and it is an
upper bound of every tag merged for `u`. -/
theorem mergeFold_inv (rs : List AssetInfo) :
    ∀ (m : List (String × AssetInfo)) (u : String) (r0 : AssetInfo),
      dictGet m u = some r0 → r0.asset_url = u →
      ∃ r, dictGet (rs.foldl mergeRecord m) u = some r ∧ r.asset_url = u ∧
        (r.godot_version = r0.godot_version ∨ r.godot_version ∈ tagsFor u rs) ∧
        strGt r0.godot_version r.godot_version = false ∧
        ∀ t ∈ tagsFor u rs, strGt t r.godot_version = false := by
  induction rs with
  | nil =>
    intro m u r0 hg hu
    exact ⟨r0, hg, hu, Or.inl rfl, strGt_irrefl _, by simp [tagsFor_nil]⟩
  | cons a rest ih =>
    intro m u r0 hg hu
    by_cases hau : a.asset_url = u
    · have hga : dictGet m a.asset_url = some r0 := by rw [hau]; exact hg
      cases hk : strGt r0.godot_version a.godot_version with
      | true =>
        have hm : mergeRecord m a = m := by simp [mergeRecord, hga, hk]
        obtain ⟨r, hr1, hr2, hr3, hr4, hr5⟩ := ih m u r0 hg hu
        refine ⟨r, by rw [List.foldl_cons, hm]; exact hr1, hr2, ?_, hr4, ?_⟩
        · rcases hr3 with h | h
          · exact Or.inl h
          · exact Or.inr (by rw [tagsFor_cons, if_pos hau]; exact List.mem_cons_of_mem _ h)
        · intro t ht
          rw [tagsFor_cons, if_pos hau] at ht
          rcases List.mem_cons.mp ht with rfl | ht'
          · exact strGt_lt_le hk hr4
          · exact hr5 t ht'
      | false =>
        have hm : mergeRecord m a = dictSet m a.asset_url a := by
          simp [mergeRecord, hga, hk]
        have hg' : dictGet (dictSet m a.asset_url a) u = some a := by
          rw [hau]
          exact dictGet_dictSet_self m u a
        obtain ⟨r, hr1, hr2, hr3, hr4, hr5⟩ := ih (dictSet m a.asset_url a) u a hg' hau
        refine ⟨r, by rw [List.foldl_cons, hm]; exact hr1, hr2, ?_, ?_, ?_⟩
        · refine Or.inr ?_
          rw [tagsFor_cons, if_pos hau]
          rcases hr3 with h | h
          · exact h ▸ List.mem_cons_self _ _
          · exact List.mem_cons_of_mem _ h
        · exact strGt_le_trans hr4 hk
        · intro t ht
          rw [tagsFor_cons, if_pos hau] at ht
          rcases List.mem_cons.mp ht with rfl | ht'
          · exact hr4
          · exact hr5 t ht'
    · have hm : dictGet (mergeRecord m a) u = dictGet m u :=
        mergeRecord_get_other m a u hau
      obtain ⟨r, hr1, hr2, hr3, hr4, hr5⟩ :=
        ih (mergeRecord m a) u r0 (by rw [hm]; exact hg) hu
      refine ⟨r, by rw [List.foldl_cons]; exact hr1, hr2, ?_, hr4, ?_⟩
      · rcases hr3 with h | h
        · exact Or.inl h
        · exact Or.inr (by rw [tagsFor_cons, if_neg hau]; exact h)
      · intro t ht
        rw [tagsFor_cons, if_neg hau] at ht
        exact hr5 t ht

/-- Starting from a map without an entry for `u`, folding the dedup/merge
step over records leaves, for `u`, a record whose tag is one of the tags of
the `u`-records and an upper bound of all of them. -/
theorem mergeFold_max (rs : List AssetInfo) :
    ∀ (m : List (String × AssetInfo)) (u : String),
      dictGet m u = none → tagsFor u rs ≠ [] →
      ∃ r, dictGet (rs.foldl mergeRecord m) u = some r ∧ r.asset_url = u ∧
        r.godot_version ∈ tagsFor u rs ∧
        ∀ t ∈ tagsFor u rs, strGt t r.godot_version = false := by
  induction rs with
  | nil =>
    intro m u hg hne
    exact absurd (tagsFor_nil u) hne
  | cons a rest ih =>
    intro m u hg hne
    by_cases hau : a.asset_url = u
    · have hga : dictGet m a.asset_url = none := by rw [hau]; exact hg
      have hm : mergeRecord m a = dictSet m a.asset_url a := by
        simp [mergeRecord, hga]
      have hg' : dictGet (dictSet m a.asset_url a) u = some a := by
        rw [hau]
        exact dictGet_dictSet_self m u a
      obtain ⟨r, hr1, hr2, hr3, hr4, hr5⟩ := mergeFold_inv rest _ u a hg' hau
      refine ⟨r, by rw [List.foldl_cons, hm]; exact hr1, hr2, ?_, ?_⟩
      · rw [tagsFor_cons, if_pos hau]
        rcases hr3 with h | h
        · exact h ▸ List.mem_cons_self _ _
        · exact List.mem_cons_of_mem _ h
      · intro t ht
        rw [tagsFor_cons, if_pos hau] at ht
        rcases List.mem_cons.mp ht with rfl | ht'
        · exact hr4
        · exact hr5 t ht'
    · have hg' : dictGet (mergeRecord m a) u = none := by
        rw [mergeRecord_get_other m a u hau]
        exact hg
      have hne' : tagsFor u rest ≠ [] := by
        rw [tagsFor_cons, if_neg hau] at hne
        exact hne
      obtain ⟨r, hr1, hr2, hr3, hr4⟩ := ih (mergeRecord m a) u hg' hne'
      refine ⟨r, by rw [List.foldl_cons]; exact hr1, hr2, ?_, ?_⟩
      · rw [tagsFor_cons, if_neg hau]
        exact hr3
      · intro t ht
        rw [tagsFor_cons, if_neg hau] at ht
        exact hr4 t ht

/-! ## Linking the run to the merge fold -/

/-- Records contributed by a list of items. -/
theorem processItem_dict (env : Env) (st : ScrapeState) (item : Item)
    (st1 : ScrapeState) (h : processItem env st item = .ok st1) :
    st1.asset_dict =
      match itemRecord? env item with
      | some r => mergeRecord st.asset_dict r
      | none => st.asset_dict := by
  unfold processItem at h
  unfold itemRecord?
  cases hs : scrape_asset env item with
  | error e => rw [hs] at h; cases h
  | ok out =>
    obtain ⟨rec?, adds⟩ := out
    rw [hs] at h
    cases rec? with
    | none => cases h; rfl
    | some r => cases h; rfl

theorem processItems_dict (env : Env) (items : List Item) :
    ∀ st st', processItems env st items = .ok st' →
      st'.asset_dict =
        (items.filterMap (itemRecord? env)).foldl mergeRecord st.asset_dict := by
  induction items with
  | nil =>
    intro st st' h
    cases h
    simp [List.filterMap_nil]
  | cons item rest ih =>
    intro st st' h
    unfold processItems at h
    cases hp : processItem env st item with
    | error e => rw [hp] at h; cases h
    | ok st1 =>
      rw [hp] at h
      have hd := processItem_dict env st item st1 hp
      have htail := ih st1 st' h
      rw [List.filterMap_cons]
      cases hi : itemRecord? env item with
      | none =>
        rw [hi] at hd
        rw [htail, hd]
      | some r =>
        rw [hi] at hd
        rw [htail, List.foldl_cons, hd]

theorem scrape_page_dict (env : Env) (st : ScrapeState) (p : Nat)
    (st' : ScrapeState) (h : scrape_page env st p = .ok st') :
    st'.asset_dict =
      ((pageItems env p).filterMap (itemRecord? env)).foldl mergeRecord
        st.asset_dict := by
  unfold scrape_page at h
  unfold pageItems
  cases hf : env.fetch (page_url p) with
  | none =>
    rw [hf] at h
    cases h
    simp [List.filterMap_nil]
  | some soup =>
    rw [hf] at h
    exact processItems_dict env soup.items st st' h

theorem runRecords_nil (env : Env) : runRecords env [] = [] := rfl

theorem runRecords_cons (env : Env) (p : Nat) (pages : List Nat) :
    runRecords env (p :: pages) =
      (pageItems env p).filterMap (itemRecord? env) ++ runRecords env pages := by
  simp [runRecords, List.filterMap_append]

theorem scrape_pages_dict (env : Env) (pages : List Nat) :
    ∀ st st', scrape_pages env st pages = .ok st' →
      st'.asset_dict = (runRecords env pages).foldl mergeRecord st.asset_dict := by
  induction pages with
  | nil =>
    intro st st' h
    cases h
    simp [runRecords_nil]
  | cons p rest ih =>
    intro st st' h
    unfold scrape_pages at h
    cases hp : scrape_page env st p with
    | error e => rw [hp] at h; cases h
    | ok st1 =>
      rw [hp] at h
      have h1 := scrape_page_dict env st p st1 hp
      have h2 := ih st1 st' h
      rw [runRecords_cons, List.foldl_append, h2, h1]

/-! ## Claims -/

/-- C1: in every completed run, for every asset URL with more than one
successfully extracted record, the record stored in the result map has a
`godot_version` tag that is the lexicographic maximum — it is one of the
tags seen for that URL and no seen tag is greater under the Python string
`>` comparison. -/
theorem C1_stored_tag_is_lex_max (env : Env) (pages : List Nat)
    (stf : ScrapeState) (u : String)
    (hrun : scrape_pages env ⟨[], []⟩ pages = .ok stf)
    (hmany : 1 < (tagsFor u (runRecords env pages)).length) :
    ∃ r, dictGet stf.asset_dict u = some r ∧
      r.godot_version ∈ tagsFor u (runRecords env pages) ∧
      ∀ t ∈ tagsFor u (runRecords env pages), strGt t r.godot_version = false := by
  have hd := scrape_pages_dict env pages _ _ hrun
  have hne : tagsFor u (runRecords env pages) ≠ [] := by
    intro hh
    rw [hh] at hmany
    simp at hmany
  obtain ⟨r, hr1, hr2, hr3, hr4⟩ :=
    mergeFold_max (runRecords env pages) [] u rfl hne
  exact ⟨r, by rw [hd]; exact hr1, hr3, hr4⟩

/-- Witness for C1: a run seeing tags `"4.10"` then `"4.2"` for the same
URL stores the record tagged `"4.2"` (the lexicographic maximum). -/
theorem C1_stored_tag_is_lex_max_witness :
    scrape_pages wEnv ⟨[], []⟩ [0] = .ok ⟨[(wUrl, wRec2)], []⟩ ∧
    1 < (tagsFor wUrl (runRecords wEnv [0])).length ∧
    wRec2.godot_version = "4.2" ∧
    (∃ r, dictGet (⟨[(wUrl, wRec2)], []⟩ : ScrapeState).asset_dict wUrl = some r ∧
      r.godot_version ∈ tagsFor wUrl (runRecords wEnv [0]) ∧
      ∀ t ∈ tagsFor wUrl (runRecords wEnv [0]), strGt t r.godot_version = false) :=
  ⟨by decide, by decide, by decide,
   C1_stored_tag_is_lex_max wEnv [0] ⟨[(wUrl, wRec2)], []⟩ wUrl (by decide) (by decide)⟩

/-- C2 (code bug): on a listing fragment whose `.asset-header` element is
missing, the selector error is caught by the `except` block, but the
handler's own `self.failed_urls.add(asset_url)` then raises on the unbound
local `asset_url`, and that exception escapes `scrape_asset` and aborts
the whole run (here: a 2-page run dies on page 0) — contrary to the claim
that no exception escapes the extract operation. -/
theorem C2_missing_header_exception_escapes :
    scrape_asset eEnv badItem = .error () ∧ scrape_all eEnv 2 = .error () := by
  decide

/-- C4: when the detail-page fetch fails, `scrape_asset` returns no record
and adds nothing to the failure set; the controller's state is unchanged,
so the asset is excluded from the result set. -/
theorem C4_detail_fetch_failure_not_recorded (env : Env) (item : Item)
    (href : String) (st : ScrapeState)
    (h1 : item.headerHref = some href)
    (h2 : env.fetch (BASE_URL ++ href) = none) :
    scrape_asset env item = .ok (none, []) ∧
    processItem env st item = .ok st := by
  have hs : scrape_asset env item = .ok (none, []) := by
    simp [scrape_asset, h1, h2]
  refine ⟨hs, ?_⟩
  obtain ⟨d, f⟩ := st
  simp [processItem, hs, List.foldl]

/-- Witness for C4: a concrete item whose detail page does not resolve. -/
theorem C4_detail_fetch_failure_not_recorded_witness :
    (⟨some "/missing", none, none, none⟩ : Item).headerHref = some "/missing" ∧
    wEnv.fetch (BASE_URL ++ "/missing") = none ∧
    (scrape_asset wEnv ⟨some "/missing", none, none, none⟩ = .ok (none, []) ∧
      processItem wEnv ⟨[], []⟩ ⟨some "/missing", none, none, none⟩ =
        .ok ⟨[], []⟩) :=
  ⟨rfl, by decide,
   C4_detail_fetch_failure_not_recorded wEnv ⟨some "/missing", none, none, none⟩
     "/missing" ⟨[], []⟩ rfl (by decide)⟩

/-- C6: a page index whose listing fetch fails contributes no items, and
the run on that page plus the remaining pages equals the run on the
remaining pages alone: no abort, no retry, all later pages processed. -/
theorem C6_failed_page_skipped (env : Env) (st : ScrapeState) (p : Nat)
    (rest : List Nat) (h : env.fetch (page_url p) = none) :
    pageItems env p = [] ∧
    scrape_pages env st (p :: rest) = scrape_pages env st rest := by
  constructor
  · simp [pageItems, h]
  · simp [scrape_pages, scrape_page, h]

/-- Witness for C6: in the all-fetches-fail environment, page 0 is skipped
and the run continues with pages 1 and 2. -/
theorem C6_failed_page_skipped_witness :
    nEnv.fetch (page_url 0) = none ∧
    (pageItems nEnv 0 = [] ∧
      scrape_pages nEnv ⟨[], []⟩ [0, 1, 2] = scrape_pages nEnv ⟨[], []⟩ [1, 2]) :=
  ⟨rfl, C6_failed_page_skipped nEnv ⟨[], []⟩ 0 [1, 2] rfl⟩

/-- C7: when the repository-page fetch fails, the extractor still builds a
complete record, with `stars` set to the literal `"0"` without consulting
`_parse_stars`. -/
theorem C7_repo_fetch_failure_stars_zero (env : Env) (item : Item)
    (href raw name tag footer : String) (asset_soup : Soup)
    (h1 : item.headerHref = some href)
    (h2 : env.fetch (BASE_URL ++ href) = some asset_soup)
    (h3 : asset_soup.btnHref = some raw)
    (h4 : env.fetch (clean_repo_url raw) = none)
    (h5 : item.titleText = some name)
    (h6 : item.tagText = some tag)
    (h7 : item.footerText = some footer) :
    scrape_asset env item =
      .ok (some { name := pyStrip name, asset_url := BASE_URL ++ href,
                  repo_url := clean_repo_url raw, stars := "0",
                  godot_version := pyStrip tag,
                  last_updated := lastSegTrim footer }, []) := by
  simp [scrape_asset, h1, h2, h3, h4, h5, h6, h7]

/-- Witness for C7: the witness asset's repository URL does not resolve,
yet a full record with `stars = "0"` is produced. -/
theorem C7_repo_fetch_failure_stars_zero_witness :
    wEnv.fetch (clean_repo_url "https://example.org/x") = none ∧
    scrape_asset wEnv wItem1 =
      .ok (some { name := pyStrip "A", asset_url := BASE_URL ++ "/asset/1",
                  repo_url := clean_repo_url "https://example.org/x",
                  stars := "0", godot_version := pyStrip "4.10",
                  last_updated := lastSegTrim "d1" }, []) :=
  ⟨by decide,
   C7_repo_fetch_failure_stars_zero wEnv wItem1 "/asset/1"
     "https://example.org/x" "A" "4.10" "d1" wAssetDoc rfl (by decide) rfl
     (by decide) rfl rfl rfl⟩

/-- C8: an extraction that yields no record never inserts into or replaces
an entry of the result map: on the caught failure paths the state's
`asset_dict` is unchanged, and on the escaping-exception path the loop
iteration produces no new state at all. -/
theorem C8_no_record_leaves_map (env : Env) (st : ScrapeState) (item : Item) :
    (∀ adds, scrape_asset env item = .ok (none, adds) →
      ∃ st', processItem env st item = .ok st' ∧ st'.asset_dict = st.asset_dict) ∧
    (∀ e, scrape_asset env item = .error e →
      processItem env st item = .error e) := by
  constructor
  · intro adds h
    exact ⟨{ asset_dict := st.asset_dict,
             failed_urls := adds.foldl setAdd st.failed_urls },
           by simp [processItem, h], rfl⟩
  · intro e h
    simp [processItem, h]

/-- Witness for C8: an item with a resolvable detail page but a missing
title element fails extraction, records the URL, and leaves the (empty)
result map empty. -/
theorem C8_no_record_leaves_map_witness :
    scrape_asset wEnv ⟨some "/asset/1", none, none, none⟩ = .ok (none, [wUrl]) ∧
    (∃ st', processItem wEnv ⟨[], []⟩ ⟨some "/asset/1", none, none, none⟩ =
        .ok st' ∧ st'.asset_dict = (⟨[], []⟩ : ScrapeState).asset_dict) :=
  ⟨by decide,
   (C8_no_record_leaves_map wEnv ⟨[], []⟩ ⟨some "/asset/1", none, none, none⟩).1
     [wUrl] (by decide)⟩

/-- C9: when a newly extracted record's tag equals the stored record's tag
for the same URL, the new record replaces the stored one; the stored
record survives only when its tag is strictly greater. -/
theorem C9_equal_tag_replaces (m : List (String × AssetInfo))
    (r prev : AssetInfo) (hg : dictGet m r.asset_url = some prev) :
    (prev.godot_version = r.godot_version →
      dictGet (mergeRecord m r) r.asset_url = some r) ∧
    (strGt prev.godot_version r.godot_version = true → mergeRecord m r = m) := by
  constructor
  · intro he
    have hf : strGt prev.godot_version r.godot_version = false := by
      rw [he]
      exact strGt_irrefl _
    simp [mergeRecord, hg, hf, dictGet_dictSet_self]
  · intro hgt
    simp [mergeRecord, hg, hgt]

/-- Witness for C9: re-merging a same-URL record with the equal tag `"4.2"`
replaces the stored record. -/
theorem C9_equal_tag_replaces_witness :
    dictGet [(wUrl, wRec2)] wRec2x.asset_url = some wRec2 ∧
    ((wRec2.godot_version = wRec2x.godot_version →
       dictGet (mergeRecord [(wUrl, wRec2)] wRec2x) wRec2x.asset_url = some wRec2x) ∧
     (strGt wRec2.godot_version wRec2x.godot_version = true →
       mergeRecord [(wUrl, wRec2)] wRec2x = [(wUrl, wRec2)])) :=
  ⟨by decide, C9_equal_tag_replaces [(wUrl, wRec2)] wRec2x wRec2 (by decide)⟩

/-- C10: on a github repository page whose social-count element is present
but carries no `title` attribute, `_parse_stars` returns the empty string
(the `.get('title', "")` default) instead of raising, while a page with
the element absent makes it raise. -/
theorem C10_missing_title_defaults_empty (repo_url : String) (soup : Soup)
    (h : strContains repo_url "github" = true) :
    (soup.socialCount = some none → parse_stars soup repo_url = .ok "") ∧
    (soup.socialCount = none → parse_stars soup repo_url = .error ()) := by
  constructor
  · intro hs
    simp only [parse_stars, h, hs, if_true]
    decide
  · intro hs
    simp [parse_stars, h, hs]

/-- Witness for C10 at a concrete github URL and page. -/
theorem C10_missing_title_defaults_empty_witness :
    strContains "https://github.com/o/r" "github" = true ∧
    ((({ socialCount := some none } : Soup).socialCount = some none →
       parse_stars { socialCount := some none } "https://github.com/o/r" = .ok "") ∧
     (({ socialCount := some none } : Soup).socialCount = none →
       parse_stars { socialCount := some none } "https://github.com/o/r" = .error ())) :=
  ⟨by decide,
   C10_missing_title_defaults_empty "https://github.com/o/r"
     { socialCount := some none } (by decide)⟩

/-! ## C3: the export-time popularity transform -/

theorem replaceChar_append (pat : Char) (rep : List Char) (xs ys : List Char) :
    replaceChar pat rep (xs ++ ys) =
      replaceChar pat rep xs ++ replaceChar pat rep ys := by
  induction xs with
  | nil => rfl
  | cons c cs ih => simp [replaceChar, ih]

theorem replaceChar_not_mem (pat : Char) (rep : List Char) (xs : List Char)
    (h : pat ∉ xs) : replaceChar pat rep xs = xs := by
  induction xs with
  | nil => rfl
  | cons c cs ih =>
    have hc : ¬c = pat := fun hh => h (hh ▸ List.mem_cons_self c cs)
    have ht : pat ∉ cs := fun hh => h (List.mem_cons_of_mem c hh)
    simp [replaceChar, hc, ih ht]

/-- C3 counterexample: the code's transform replaces every `"k"`, not only
a trailing one, so on the stored score `"k1"` it yields `"001"` while the
claimed strip-periods-then-replace-trailing-`k` rule leaves `"k1"`. -/
theorem C3_counterexample :
    strip_stars "k1" = "001" ∧ spec_normalize "k1" = "k1" ∧
    strip_stars "k1" ≠ spec_normalize "k1" := by decide

/-- C3 amended: the normalization removes every period and then replaces
every occurrence of `"k"` with `"00"`; whenever the only `k` (if any) of
the period-stripped score is its last character, this agrees with the
claimed trailing-`k` rule, and the quoted examples normalize to the
numbers 1200, 340 and 0. -/
theorem C3_popularity_transform (x : String)
    (h : 'k' ∉ (replaceChar '.' [] x.data).dropLast) :
    strip_stars x = spec_normalize x ∧
    parseNat? (strip_stars "1.2k") = some 1200 ∧
    parseNat? (strip_stars "340") = some 340 ∧
    parseNat? (strip_stars "0") = some 0 := by
  refine ⟨?_, by decide, by decide, by decide⟩
  unfold strip_stars spec_normalize
  rcases List.eq_nil_or_concat (replaceChar '.' [] x.data) with hy | ⟨ys, c, hy⟩
  · rw [hy]
    decide
  · rw [List.concat_eq_append] at hy
    rw [hy] at h ⊢
    rw [List.dropLast_concat] at h
    rw [replaceChar_append, replaceChar_not_mem 'k' _ ys h]
    by_cases hc : c = 'k'
    · subst hc
      simp [replaceChar, List.getLast?_concat, List.dropLast_concat]
    · simp [replaceChar, List.getLast?_concat, hc]

/-- Witness for C3 on the spec's own example `"1.2k"`, whose only `k` is
trailing. -/
theorem C3_popularity_transform_witness :
    'k' ∉ (replaceChar '.' [] ("1.2k").data).dropLast ∧
    (strip_stars "1.2k" = spec_normalize "1.2k" ∧
     parseNat? (strip_stars "1.2k") = some 1200 ∧
     parseNat? (strip_stars "340") = some 340 ∧
     parseNat? (strip_stars "0") = some 0) :=
  ⟨by decide, C3_popularity_transform "1.2k" (by decide)⟩

/-! ## C5: repository-URL cleaning -/

theorem data_mk (cs : List Char) : (String.mk cs).data = cs := rfl

theorem pySplit_zero (sep : Char) (cs : List Char) : pySplit sep 0 cs = [cs] := by
  cases cs <;> rfl

/-- Splitting with a positive budget peels off one separator-free segment. -/
theorem pySplit_seg (sep : Char) (m n : Nat) (hm : m = n + 1)
    (g rest : List Char) (h : sep ∉ g) :
    pySplit sep m (g ++ sep :: rest) = g :: pySplit sep n rest := by
  subst hm
  induction g with
  | nil => simp [pySplit]
  | cons c cs ih =>
    have hc : ¬c = sep := fun hh => h (by rw [← hh]; exact List.mem_cons_self c cs)
    have ht : sep ∉ cs := fun hh => h (List.mem_cons_of_mem c hh)
    simp [pySplit, hc, ih ht]

/-- C5 counterexample: `_clean_repo_url` tests for the substring
`"github"` anywhere in the URL, so a URL hosted on gitlab.com whose path
contains `"github"` is truncated — contradicting the claim that URLs of
every non-github host are returned unchanged. -/
theorem C5_counterexample :
    strContains "gitlab.com" "github" = false ∧
    clean_repo_url "https://gitlab.com/owner/github/issues/5" =
      "https://gitlab.com/owner/github" ∧
    clean_repo_url "https://gitlab.com/owner/github/issues/5" ≠
      "https://gitlab.com/owner/github/issues/5" := by decide

/-- C5 amended: a URL containing `"github"` anywhere (not only in its
host) is truncated to its first five `'/'`-separated segments (scheme,
empty authority marker, host, owner, repo), and a URL without the
substring `"github"` is returned unchanged. -/
theorem C5_clean_repo_url_truncation (s0 s1 s2 s3 s4 rest : List Char)
    (h0 : '/' ∉ s0) (h1 : '/' ∉ s1) (h2 : '/' ∉ s2) (h3 : '/' ∉ s3)
    (h4 : '/' ∉ s4) :
    (strContains
        ⟨s0 ++ ('/' :: (s1 ++ ('/' :: (s2 ++ ('/' :: (s3 ++ ('/' :: (s4 ++ ('/' :: rest)))))))))⟩
        "github" = true →
      clean_repo_url
          ⟨s0 ++ ('/' :: (s1 ++ ('/' :: (s2 ++ ('/' :: (s3 ++ ('/' :: (s4 ++ ('/' :: rest)))))))))⟩ =
        ⟨s0 ++ ('/' :: (s1 ++ ('/' :: (s2 ++ ('/' :: (s3 ++ ('/' :: s4)))))))⟩) ∧
    (strContains
        ⟨s0 ++ ('/' :: (s1 ++ ('/' :: (s2 ++ ('/' :: (s3 ++ ('/' :: (s4 ++ ('/' :: rest)))))))))⟩
        "github" = false →
      clean_repo_url
          ⟨s0 ++ ('/' :: (s1 ++ ('/' :: (s2 ++ ('/' :: (s3 ++ ('/' :: (s4 ++ ('/' :: rest)))))))))⟩ =
        ⟨s0 ++ ('/' :: (s1 ++ ('/' :: (s2 ++ ('/' :: (s3 ++ ('/' :: (s4 ++ ('/' :: rest)))))))))⟩) := by
  constructor
  · intro hc
    unfold clean_repo_url
    rw [if_pos hc]
    have e0 : pySplit '/' 5
        (s0 ++ ('/' :: (s1 ++ ('/' :: (s2 ++ ('/' :: (s3 ++ ('/' :: (s4 ++ ('/' :: rest))))))))))
        = s0 :: pySplit '/' 4
            (s1 ++ ('/' :: (s2 ++ ('/' :: (s3 ++ ('/' :: (s4 ++ ('/' :: rest)))))))) :=
      pySplit_seg '/' 5 4 (by norm_num) s0
        (s1 ++ ('/' :: (s2 ++ ('/' :: (s3 ++ ('/' :: (s4 ++ ('/' :: rest)))))))) h0
    have e1 : pySplit '/' 4
        (s1 ++ ('/' :: (s2 ++ ('/' :: (s3 ++ ('/' :: (s4 ++ ('/' :: rest))))))))
        = s1 :: pySplit '/' 3 (s2 ++ ('/' :: (s3 ++ ('/' :: (s4 ++ ('/' :: rest)))))) :=
      pySplit_seg '/' 4 3 (by norm_num) s1
        (s2 ++ ('/' :: (s3 ++ ('/' :: (s4 ++ ('/' :: rest)))))) h1
    have e2 : pySplit '/' 3
        (s2 ++ ('/' :: (s3 ++ ('/' :: (s4 ++ ('/' :: rest))))))
        = s2 :: pySplit '/' 2 (s3 ++ ('/' :: (s4 ++ ('/' :: rest)))) :=
      pySplit_seg '/' 3 2 (by norm_num) s2
        (s3 ++ ('/' :: (s4 ++ ('/' :: rest)))) h2
    have e3 : pySplit '/' 2 (s3 ++ ('/' :: (s4 ++ ('/' :: rest))))
        = s3 :: pySplit '/' 1 (s4 ++ ('/' :: rest)) :=
      pySplit_seg '/' 2 1 (by norm_num) s3 (s4 ++ ('/' :: rest)) h3
    have e4 : pySplit '/' 1 (s4 ++ ('/' :: rest)) = s4 :: pySplit '/' 0 rest :=
      pySplit_seg '/' 1 0 (by norm_num) s4 rest h4
    have hsplit : pyJoin '/' (List.take 5 (pySplit '/' 5
        (s0 ++ ('/' :: (s1 ++ ('/' :: (s2 ++ ('/' :: (s3 ++ ('/' :: (s4 ++ ('/' :: rest)))))))))))) =
        s0 ++ ('/' :: (s1 ++ ('/' :: (s2 ++ ('/' :: (s3 ++ ('/' :: s4))))))) := by
      rw [e0, e1, e2, e3, e4, pySplit_zero]
      simp [pyJoin]
    exact congrArg String.mk hsplit
  · intro hc
    unfold clean_repo_url
    rw [if_neg (by rw [hc]; simp)]

/-- Witness for C5 amended, on the spec's own example URL. -/
theorem C5_clean_repo_url_truncation_witness :
    (⟨"https:".data ++ ('/' :: ("".data ++ ('/' :: ("github.com".data ++ ('/' ::
        ("owner".data ++ ('/' :: ("repo".data ++ ('/' :: "issues/5".data)))))))))⟩ : String) =
      "https://github.com/owner/repo/issues/5" ∧
    (⟨"https:".data ++ ('/' :: ("".data ++ ('/' :: ("github.com".data ++ ('/' ::
        ("owner".data ++ ('/' :: "repo".data)))))))⟩ : String) =
      "https://github.com/owner/repo" ∧
    clean_repo_url
        ⟨"https:".data ++ ('/' :: ("".data ++ ('/' :: ("github.com".data ++ ('/' ::
          ("owner".data ++ ('/' :: ("repo".data ++ ('/' :: "issues/5".data)))))))))⟩ =
      ⟨"https:".data ++ ('/' :: ("".data ++ ('/' :: ("github.com".data ++ ('/' ::
        ("owner".data ++ ('/' :: "repo".data)))))))⟩ :=
  ⟨by decide, by decide,
   (C5_clean_repo_url_truncation "https:".data "".data "github.com".data
       "owner".data "repo".data "issues/5".data (by decide) (by decide)
       (by decide) (by decide) (by decide)).1 (by decide)⟩
